import Mathlib

/-!
Shallow embedding of the ring-of-rings audio engine of `src/audio.c`
(the `USE_AUDIORING` code path, which is the design covered by the
specification).  Pure sample-processing functions are translated as Lean
functions on `List Int` (one entry per signed 16-bit sample, C `int`
arithmetic modelled by unbounded `Int` with `Int.tdiv` for the C `/`
operator, which truncates toward zero).  The producer-side state machine
(`AudioRingAdd`, `AudioEnqueue`, `AudioFlushBuffers`, `AudioGetDelay`,
`AudioGetClock`) is modelled by explicit state passing on `AudioState`.

The byte ring-buffer collaborator (`ringbuffer.c`) is not part of
`src/`; following the specification it is treated as a black box and
only its byte accounting is modelled (see `RingBuffer` below).
-/

/-- SENTINEL presentation timestamp: `0x8000000000000000` read as a
two's-complement `int64_t`, i.e. the most negative 64-bit integer. -/
def SENTINEL : Int := -(2 ^ 63)

/-- Constant `AudioBytesProSample = 2` from audio.c (16-bit samples). -/
def AudioBytesProSample : Nat := 2

/-- Constant `AudioRingBufferSize = 3 * 5 * 7 * 8 * 2 * 1000` from audio.c. -/
def AudioRingBufferSize : Nat := 3 * 5 * 7 * 8 * 2 * 1000

/-- Constant `AUDIO_RING_MAX = 8`: depth of the ring of rings. -/
def AUDIO_RING_MAX : Nat := 8

/-- Table `AudioRatesTable = { 44100, 48000 }` of supported sample rates. -/
def AudioRatesTable : List Nat := [44100, 48000]

/-- C assignment of an `int` value to an `int16_t` field: two's-complement
truncation to 16 bits. -/
def int16OfInt (n : Int) : Int :=
  (n + 32768) % 65536 - 32768

/-- Hard clipping to the `int16_t` range, as done by the sample filters in
audio.c (`if (t < INT16_MIN) ... else if (t > INT16_MAX) ...`). -/
def clampInt16 (t : Int) : Int :=
  if t < -32768 then -32768
  else if t > 32767 then 32767
  else t

/-- Function `AudioSoftAmplifier` of audio.c, on a buffer of 16-bit
samples (the C function receives a byte count equal to twice the sample
count and processes every sample; `memset` zeroes the whole buffer).
When `AudioMute` is set or `AudioAmplifier` is zero the buffer is
zeroed, otherwise each sample becomes `(s * amplifier) / 1000` with C
integer division and hard clipping. -/
def AudioSoftAmplifier (samples : List Int) (mute : Bool) (amplifier : Int) :
    List Int :=
  if mute = true ∨ amplifier = 0 then
    samples.map (fun _ => 0)
  else
    samples.map (fun s => clampInt16 (Int.tdiv (s * amplifier) 1000))

/-- Function `AudioStereo2Mono` of audio.c, translated loop-faithfully:
`for (i = 0; i < frames; i += 2) out[i / 2] = (in[i] + in[i + 1]) / 2;`.
The loop performs `(frames + 1) / 2` iterations, iteration `j` (at
`i = 2 * j`) reading input samples `2 * j` and `2 * j + 1` and writing
output slot `j`; the output therefore holds `(frames + 1) / 2` samples. -/
def AudioStereo2Mono (input : List Int) (frames : Nat) : List Int :=
  (List.range ((frames + 1) / 2)).map (fun j =>
    Int.tdiv (input.getD (2 * j) 0 + input.getD (2 * j + 1) 0) 2)

/-- Function `AudioMono2Stereo` of audio.c: duplicate each of the
`frames` mono samples into both stereo slots. -/
def AudioMono2Stereo (input : List Int) (frames : Nat) : List Int :=
  (List.range frames).flatMap (fun i => [input.getD i 0, input.getD i 0])

/-- Accumulated left/right sums of one frame in `AudioSurround2Stereo`
of audio.c, before the final division by 1000.  The C `switch` aborts on
a channel count outside 3..8, modelled by `none`. -/
def surroundFrameSums (in_chan : Nat) (frame : List Int) : Option (Int × Int) :=
  let a := fun i => frame.getD i 0
  match in_chan with
  | 3 => some (a 0 * 600 + a 2 * 400, a 1 * 600 + a 2 * 400)
  | 4 => some (a 0 * 600 + a 2 * 400, a 1 * 600 + a 3 * 400)
  | 5 => some (a 0 * 500 + a 2 * 200 + a 4 * 300,
               a 1 * 500 + a 3 * 200 + a 4 * 300)
  | 6 => some (a 0 * 400 + a 2 * 200 + a 4 * 300 + a 5 * 300,
               a 1 * 400 + a 3 * 200 + a 4 * 300 + a 5 * 100)
  | 7 => some (a 0 * 400 + a 2 * 200 + a 4 * 300 + a 5 * 100,
               a 1 * 400 + a 3 * 200 + a 4 * 300 + a 6 * 100)
  | 8 => some (a 0 * 400 + a 2 * 150 + a 4 * 250 + a 5 * 100 + a 6 * 100,
               a 1 * 400 + a 3 * 150 + a 4 * 250 + a 5 * 100 + a 7 * 100)
  | _ => none

/-- Function `AudioSurround2Stereo` of audio.c: per input frame of
`in_chan` samples, accumulate the weighted sums and divide by 1000 once
at the end (`out[0] = l / 1000; out[1] = r / 1000;`), emitting one
stereo frame.  `out` is an `int16_t *`, so the store narrows the `int`
quotient to 16 bits (`int16OfInt`): there is no clamp in this function.
`none` models the `abort()` on unsupported counts. -/
def AudioSurround2Stereo (input : List Int) (in_chan : Nat) (frames : Nat) :
    Option (List Int) :=
  match frames with
  | 0 => some []
  | n + 1 =>
    match surroundFrameSums in_chan (input.take in_chan) with
    | none => none
    | some (l, r) =>
      match AudioSurround2Stereo (input.drop in_chan) in_chan n with
      | none => none
      | some rest =>
        some (int16OfInt (Int.tdiv l 1000) :: int16OfInt (Int.tdiv r 1000) :: rest)

/-- Compute the start threshold as `AlsaSetup` of audio.c does:
start from the period size in bytes, raise to the delay-target byte
count when smaller, cap at one third of the ring size.  The target
delay in ms is `AudioBufferTime` plus `VideoAudioDelay / 90` when
`VideoAudioDelay` is positive. -/
def AlsaSetupStartThreshold (period_bytes freq channels buffer_time : Nat)
    (video_audio_delay : Int) : Nat :=
  let delay : Nat :=
    buffer_time + (if 0 < video_audio_delay then video_audio_delay.toNat / 90 else 0)
  let st := period_bytes
  let st :=
    if st < (freq * channels * AudioBytesProSample * delay) / 1000 then
      (freq * channels * AudioBytesProSample * delay) / 1000
    else st
  if st > AudioRingBufferSize / 3 then AudioRingBufferSize / 3 else st

/-- Start-threshold formula stated in the words of the specification
(section 4.F), for comparison with `AlsaSetupStartThreshold`:
`min(RING_SIZE / 3, max(min_bytes, rate * channels * 2 * target_ms / 1000))`
with `target_ms = audio_buffer_time + max(0, video_audio_delay / 90)`. -/
def specStartThreshold (period_bytes freq channels buffer_time : Nat)
    (video_audio_delay : Int) : Nat :=
  let target_ms : Nat := buffer_time + (max 0 (Int.tdiv video_audio_delay 90)).toNat
  min (AudioRingBufferSize / 3)
    (max period_bytes (freq * channels * 2 * target_ms / 1000))

/-- Byte accounting of the ring-buffer collaborator.
Modelled from the spec: `ringbuffer.c` is not under `src/`; section 6.2
describes it as a black-box single-producer/single-consumer byte ring
with `write` returning the number of bytes actually placed, plus
`reset`, `read_advance`, `used_bytes` and `free_bytes`.  Only the byte
counters are modelled; payload bytes never influence the claims below. -/
structure RingBuffer where
  capacity : Nat
  used : Nat
deriving DecidableEq

/-- Ring-buffer `write`: places `min count free` bytes.
Modelled from the spec: see `RingBuffer`. -/
def RingBufferWrite (rb : RingBuffer) (count : Nat) : RingBuffer × Nat :=
  let n := min count (rb.capacity - rb.used)
  ({ rb with used := rb.used + n }, n)

/-- Ring-buffer `used_bytes`.  Modelled from the spec: see `RingBuffer`. -/
def RingBufferUsedBytes (rb : RingBuffer) : Nat := rb.used

/-- Ring-buffer `read_advance`.  Modelled from the spec: see `RingBuffer`. -/
def RingBufferReadAdvance (rb : RingBuffer) (n : Nat) : RingBuffer :=
  { rb with used := rb.used - n }

/-- Ring-buffer `reset`.  Modelled from the spec: see `RingBuffer`. -/
def RingBufferReset (rb : RingBuffer) : RingBuffer :=
  { rb with used := 0 }

/-- One slot of the ring of rings: struct `_audio_ring_ring_` of audio.c.
`PacketSize` is an `int16_t` in C, modelled as an `Int` kept in range by
`int16OfInt` at the single write site. -/
structure AudioRingRing where
  FlushBuffers : Bool
  UseAc3 : Bool
  PacketSize : Int
  HwSampleRate : Nat
  HwChannels : Nat
  InSampleRate : Nat
  InChannels : Nat
  PTS : Int
  Ring : RingBuffer
deriving DecidableEq

instance : Inhabited AudioRingRing :=
  ⟨⟨false, false, 0, 0, 0, 0, 0, 0, ⟨0, 0⟩⟩⟩

/-- Producer-visible module state of audio.c: the ring of rings with its
write/read indices and fill count, the start threshold, the running and
video-ready flags, the pending skip, and the configuration read by the
modelled operations.  `AudioChannelMatrix` maps a rate index (into
`AudioRatesTable`) and an input channel count to the hardware channel
count discovered at init (0 = unsupported).  `AudioThread` tells whether
the playback worker exists (audio.c guards on the `AudioThread` handle).
`moduleGetDelay` abstracts the value returned by the selected driver
adapter `GetDelay` operation at the moment of the call. -/
structure AudioState where
  AudioRing : List AudioRingRing
  AudioRingWrite : Nat
  AudioRingRead : Nat
  AudioRingFilled : Nat
  AudioStartThreshold : Nat
  AudioRunning : Bool
  AudioVideoIsReady : Bool
  AudioSkip : Nat
  AudioThread : Bool
  AudioChannelMatrix : Nat → Nat → Nat
  moduleGetDelay : Int

/-- Current write segment, `AudioRing[AudioRingWrite]`. -/
def writeSeg (s : AudioState) : AudioRingRing :=
  s.AudioRing.getD s.AudioRingWrite default

/-- Current read segment, `AudioRing[AudioRingRead]`. -/
def readSeg (s : AudioState) : AudioRingRing :=
  s.AudioRing.getD s.AudioRingRead default

/-- Function `AudioRingAdd` of audio.c: look the sample rate up in
`AudioRatesTable` (first matching index), reject an unsupported rate, a
zero channel-matrix entry, or a full ring (`AudioRingFilled ==
AUDIO_RING_MAX`) with -1 and no state change; otherwise advance the
write index, reinitialise that slot (flush marked, ring reset, PTS set
to SENTINEL), bump the fill count, and — when the worker thread exists —
set `AudioRunning` and signal the start condition.  Returns 0. -/
def AudioRingAdd (s : AudioState) (sample_rate : Nat) (channels : Nat)
    (use_ac3 : Bool) : AudioState × Int :=
  match AudioRatesTable.findIdx? (fun r => r == sample_rate) with
  | none => (s, -1)
  | some u =>
    if s.AudioChannelMatrix u channels = 0 then (s, -1)
    else if s.AudioRingFilled = AUDIO_RING_MAX then (s, -1)
    else
      let w := (s.AudioRingWrite + 1) % AUDIO_RING_MAX
      let seg := s.AudioRing.getD w default
      let seg := { seg with
        FlushBuffers := true
        UseAc3 := use_ac3
        PacketSize := 0
        InSampleRate := sample_rate
        InChannels := channels
        HwSampleRate := sample_rate
        HwChannels := s.AudioChannelMatrix u channels
        PTS := SENTINEL
        Ring := RingBufferReset seg.Ring }
      let s1 := { s with
        AudioRingWrite := w
        AudioRing := s.AudioRing.set w seg
        AudioRingFilled := s.AudioRingFilled + 1 }
      let s2 := if s1.AudioThread then { s1 with AudioRunning := true } else s1
      (s2, 0)

/-- Function `AudioFlushBuffers` of audio.c (void, producer side): it
unconditionally advances the write index, marks the new slot as a flush
segment inheriting the format of the previous write segment, sets its
PTS to SENTINEL, empties its ring via `read_advance(used)`, clears
`AudioVideoIsReady` and `AudioSkip`, and increments the fill count.  The
subsequent bounded polling loop sets `AudioRunning` whenever it is
clear so the worker wakes up and drains the flush (the loop body runs at
least once; the concurrent draining by the worker is outside this
producer-side model). -/
def AudioFlushBuffers (s : AudioState) : AudioState :=
  let old := s.AudioRingWrite
  let w := (old + 1) % AUDIO_RING_MAX
  let oldSeg := s.AudioRing.getD old default
  let seg := s.AudioRing.getD w default
  let seg := { seg with
    FlushBuffers := true
    UseAc3 := oldSeg.UseAc3
    HwSampleRate := oldSeg.HwSampleRate
    HwChannels := oldSeg.HwChannels
    InSampleRate := oldSeg.InSampleRate
    InChannels := oldSeg.InChannels
    PTS := SENTINEL
    Ring := RingBufferReadAdvance seg.Ring (RingBufferUsedBytes seg.Ring) }
  { s with
    AudioRingWrite := w
    AudioRing := s.AudioRing.set w seg
    AudioVideoIsReady := false
    AudioSkip := 0
    AudioRingFilled := s.AudioRingFilled + 1
    AudioRunning := true }

/-- Byte count of one enqueue after conversion to the hardware format of
the write segment, as computed inside `AudioEnqueue` of audio.c: for AC3
pass-through the input byte count itself, otherwise
`frames * HwChannels * AudioBytesProSample` with
`frames = count / (InChannels * AudioBytesProSample)`. -/
def enqueueHwBytes (seg : AudioRingRing) (count : Nat) : Nat :=
  if seg.UseAc3 then count
  else (count / (seg.InChannels * AudioBytesProSample)) * seg.HwChannels *
    AudioBytesProSample

/-- Function `AudioEnqueue` of audio.c (ring-of-rings path) is modelled
in stages, one per block of the C function; `AudioEnqueue` below
assembles them.  With no prior setup (`HwSampleRate == 0` on the write
segment) the C function returns at once without touching anything;
otherwise it records the packet size on first use
(`enqueueSegPacket`, this stage), converts the input to the hardware
format (`enqueueHwBytes` bytes; the remix output and the in-place
filters do not change the byte count) and writes it into the
write-segment ring (`enqueueSegWritten`), consumes the pending skip
when the worker is parked (`enqueueSegSkipped`), possibly starts the
worker, and advances a non-SENTINEL PTS (`enqueueSegFinal`). -/
def enqueueSegPacket (s : AudioState) (count0 : Nat) : AudioRingRing :=
  if (writeSeg s).PacketSize = 0 then
    { writeSeg s with PacketSize := int16OfInt count0 }
  else writeSeg s

/-- Ring-write step of `AudioEnqueue`: the converted bytes are placed in
the write-segment ring via the ring-buffer `write` operation. -/
def enqueueSegWritten (s : AudioState) (count0 : Nat) : AudioRingRing :=
  { enqueueSegPacket s count0 with
    Ring := (RingBufferWrite (enqueueSegPacket s count0).Ring
      (enqueueHwBytes (enqueueSegPacket s count0) count0)).1 }

/-- Pending-skip consumption inside the `!AudioRunning` block of
`AudioEnqueue`: `skip = min(AudioSkip, used)` bytes are dropped from the
write-segment ring by advancing its read cursor. -/
def enqueueSegSkipped (s : AudioState) (count0 : Nat) : AudioRingRing :=
  if s.AudioRunning = false ∧ s.AudioSkip ≠ 0 then
    { enqueueSegWritten s count0 with
      Ring := RingBufferReadAdvance (enqueueSegWritten s count0).Ring
        (min s.AudioSkip (RingBufferUsedBytes (enqueueSegWritten s count0).Ring)) }
  else enqueueSegWritten s count0

/-- PTS advance at the end of `AudioEnqueue`: a non-SENTINEL PTS grows
by `count * 90 * 1000 / (HwSampleRate * HwChannels *
AudioBytesProSample)` ticks, `count` being the converted byte count. -/
def enqueueSegFinal (s : AudioState) (count0 : Nat) : AudioRingRing :=
  if (enqueueSegSkipped s count0).PTS ≠ SENTINEL then
    { enqueueSegSkipped s count0 with
      PTS := (enqueueSegSkipped s count0).PTS +
        ((enqueueHwBytes (enqueueSegPacket s count0) count0 * 90 * 1000) /
          ((enqueueSegSkipped s count0).HwSampleRate *
            (enqueueSegSkipped s count0).HwChannels * AudioBytesProSample) : Nat) }
  else enqueueSegSkipped s count0

/-- Assembled `AudioEnqueue` transition: the write slot is replaced by
`enqueueSegFinal`, the pending skip shrinks by the consumed amount, and
`AudioRunning` is set when the worker is parked and the buffered byte
count exceeds `4 * AudioStartThreshold`, or exceeds
`AudioStartThreshold` with `AudioVideoIsReady` set. -/
def AudioEnqueue (s : AudioState) (count0 : Nat) : AudioState :=
  if (writeSeg s).HwSampleRate = 0 then s
  else
    { s with
      AudioRing := s.AudioRing.set s.AudioRingWrite (enqueueSegFinal s count0)
      AudioSkip :=
        if s.AudioRunning = false ∧ s.AudioSkip ≠ 0 then
          s.AudioSkip -
            min s.AudioSkip (RingBufferUsedBytes (enqueueSegWritten s count0).Ring)
        else s.AudioSkip
      AudioRunning :=
        if s.AudioRunning = false ∧
            (s.AudioStartThreshold * 4 <
                RingBufferUsedBytes (enqueueSegSkipped s count0).Ring ∨
              (s.AudioVideoIsReady = true ∧
                s.AudioStartThreshold <
                  RingBufferUsedBytes (enqueueSegSkipped s count0).Ring)) then
          true
        else s.AudioRunning }

/-- Function `AudioGetDelay` of audio.c (ring-of-rings path): 0 when not
running, when the read segment has no configured rate, or when further
segments are queued; otherwise the adapter delay plus the 90 kHz ticks
of the bytes still in the read-segment ring. -/
def AudioGetDelay (s : AudioState) : Int :=
  if s.AudioRunning = false then 0
  else if (readSeg s).HwSampleRate = 0 then 0
  else if s.AudioRingFilled ≠ 0 then 0
  else
    s.moduleGetDelay +
      ((RingBufferUsedBytes (readSeg s).Ring * 90 * 1000) /
        ((readSeg s).HwSampleRate * (readSeg s).HwChannels *
          AudioBytesProSample) : Nat)

/-- Function `AudioGetClock` of audio.c (ring-of-rings path): when the
read-segment PTS is not SENTINEL and `AudioGetDelay` is non-zero,
return `PTS - delay`; in every other case (SENTINEL PTS, or a zero
delay) return SENTINEL. -/
def AudioGetClock (s : AudioState) : Int :=
  if (readSeg s).PTS ≠ SENTINEL then
    let delay := AudioGetDelay s
    if delay ≠ 0 then (readSeg s).PTS + 0 * 90 - delay
    else SENTINEL
  else SENTINEL

/-- Helper: the hard clipper really lands in the `int16_t` range. -/
theorem clampInt16_range (t : Int) : -32768 ≤ clampInt16 t ∧ clampInt16 t ≤ 32767 := by
  unfold clampInt16
  split_ifs <;> omega

/-- Claim C1 (code bug witness): on the stereo input `[10, 20, 30, 40]`
holding the 2 frames `(10, 20)` and `(30, 40)`, `AudioStereo2Mono`
produces a single mono sample `(10 + 20) / 2 = 15` instead of the 2
samples `[15, 35]` the claim requires: the loop steps `i` by 2 up to
`frames`, so only the first `frames / 2` frames are converted. -/
theorem audioStereo2Mono_half_output :
    AudioStereo2Mono [10, 20, 30, 40] 2 = [15] ∧
      (AudioStereo2Mono [10, 20, 30, 40] 2).length ≠ 2 := by
  decide

/-- Claim C7: the start threshold computed at setup in `AlsaSetup`
equals `min(RING_SIZE / 3, max(period_size_in_bytes,
rate * channels * 2 * target_ms / 1000))` with
`target_ms = audio_buffer_time + max(0, video_audio_delay / 90)` and
`RING_SIZE = 1680000`. -/
theorem alsaSetup_startThreshold_eq_spec (p f c bt : Nat) (vad : Int) :
    AlsaSetupStartThreshold p f c bt vad = specStartThreshold p f c bt vad := by
  unfold AlsaSetupStartThreshold specStartThreshold
  have hdelay : (if 0 < vad then vad.toNat / 90 else 0)
      = (max 0 (Int.tdiv vad 90)).toNat := by
    by_cases hv : 0 < vad
    · have h1 : vad = (vad.toNat : Int) := (Int.toNat_of_nonneg (le_of_lt hv)).symm
      rw [if_pos hv]
      have h2 : Int.tdiv vad 90 = ((vad.toNat / 90 : Nat) : Int) := by
        conv_lhs => rw [h1]
        exact_mod_cast (Int.ofNat_tdiv vad.toNat 90).symm
      rw [h2, max_eq_right (Int.ofNat_nonneg _)]
      omega
    · have h2 : Int.tdiv vad 90 = -((-vad).tdiv 90) := by
        rw [← Int.neg_tdiv, neg_neg]
      have h3 : (0 : Int) ≤ (-vad).tdiv 90 :=
        Int.tdiv_nonneg (by omega) (by omega)
      rw [if_neg hv, max_eq_left (by omega)]
      rfl
  rw [hdelay]
  simp only [AudioBytesProSample, AudioRingBufferSize]
  generalize f * c * 2 * (bt + (max 0 (Int.tdiv vad 90)).toNat) / 1000 = d
  split_ifs <;> omega

/-- Claim C8 counterexample: on the in-range 6-channel frame with every
sample at 32767, the left weights sum to 1200, so the accumulated
quotient is `32767 * 1200 / 1000 = 39320`; the store into the `int16_t`
output buffer wraps it to -26216, so the downmix does NOT output
`(L*400 + Ls*200 + C*300 + LFE*300) / 1000` for this frame (the right
channel, weight sum 1000, stays at 32767). -/
theorem audioSurround2Stereo_6ch_wraps :
    AudioSurround2Stereo [32767, 32767, 32767, 32767, 32767, 32767] 6 1 =
      some [-26216, 32767] ∧
    Int.tdiv (32767 * 400 + 32767 * 200 + 32767 * 300 + 32767 * 300) 1000 =
      39320 ∧
    (-26216 : Int) ≠ 39320 := by
  decide

/-- Claim C8 as amended: for every 6-channel input frame
`(L, R, Ls, Rs, C, LFE)`, the surround-to-stereo downmix outputs
`left = (L*400 + Ls*200 + C*300 + LFE*300) / 1000` and
`right = (R*400 + Rs*200 + C*300 + LFE*100) / 1000`, the division by
1000 applied once to the accumulated sums, each quotient narrowed to
`int16_t` (two's-complement wrap, no clamp) by the store into the
output buffer. -/
theorem audioSurround2Stereo_6ch (L R Ls Rs C LFE : Int) :
    AudioSurround2Stereo [L, R, Ls, Rs, C, LFE] 6 1 =
      some [int16OfInt (Int.tdiv (L * 400 + Ls * 200 + C * 300 + LFE * 300) 1000),
            int16OfInt (Int.tdiv (R * 400 + Rs * 200 + C * 300 + LFE * 100) 1000)] := by
  rfl

/-- Claim C9: if muted or the amplifier gain is 0 the amplifier zeroes
the whole buffer; otherwise each sample becomes
`sample * amplifier / 1000` hard-clipped to the `int16_t` range, and no
output sample lies outside `[-32768, 32767]` in any case. -/
theorem audioSoftAmplifier_spec (samples : List Int) (mute : Bool) (amplifier : Int) :
    ((mute = true ∨ amplifier = 0) →
      AudioSoftAmplifier samples mute amplifier = samples.map (fun _ => 0)) ∧
    (mute = false → amplifier ≠ 0 →
      AudioSoftAmplifier samples mute amplifier =
        samples.map (fun s => clampInt16 (Int.tdiv (s * amplifier) 1000))) ∧
    (∀ x ∈ AudioSoftAmplifier samples mute amplifier,
      -32768 ≤ x ∧ x ≤ 32767) := by
  refine ⟨?_, ?_, ?_⟩
  · intro h
    unfold AudioSoftAmplifier
    rw [if_pos h]
  · intro h1 h2
    unfold AudioSoftAmplifier
    rw [if_neg (by simp [h1, h2])]
  · intro x hx
    unfold AudioSoftAmplifier at hx
    split at hx
    · rcases List.mem_map.mp hx with ⟨s, _, rfl⟩
      omega
    · rcases List.mem_map.mp hx with ⟨s, _, rfl⟩
      exact clampInt16_range _

/-- Concrete run of claim C9: with mute off and gain 2000, the samples
`[30000, -30000, 5]` become `[32767, -32768, 10]` (both clips hit). -/
theorem audioSoftAmplifier_spec_witness :
    AudioSoftAmplifier [30000, -30000, 5] false 2000 = [32767, -32768, 10] := by
  have h := (audioSoftAmplifier_spec [30000, -30000, 5] false 2000).2.1 rfl (by decide)
  rw [h]
  decide

/-- Helper: reading back the slot just written in the ring of rings. -/
theorem getD_set_self (l : List AudioRingRing) (i : Nat) (a : AudioRingRing)
    (h : i < l.length) : (l.set i a).getD i default = a := by
  rw [List.getD_eq_getElem?_getD, List.getElem?_set_self (by omega)]
  rfl

/-- Empty segment slot as produced by `AudioRingInit`: no format
configured yet, SENTINEL PTS, an allocated ring of `AudioRingBufferSize`
bytes. -/
def initSeg : AudioRingRing :=
  { FlushBuffers := false
    UseAc3 := false
    PacketSize := 0
    HwSampleRate := 0
    HwChannels := 0
    InSampleRate := 0
    InChannels := 0
    PTS := SENTINEL
    Ring := { capacity := AudioRingBufferSize, used := 0 } }

/-- Module state right after `AudioInit`: eight empty slots, zero
indices and fill count, worker thread created and parked, a channel
matrix that (as on common hardware) maps two input channels to two
hardware channels at both rates. -/
def initState : AudioState :=
  { AudioRing := List.replicate 8 initSeg
    AudioRingWrite := 0
    AudioRingRead := 0
    AudioRingFilled := 0
    AudioStartThreshold := 0
    AudioRunning := false
    AudioVideoIsReady := false
    AudioSkip := 0
    AudioThread := true
    AudioChannelMatrix := fun _ c => if c = 2 then 2 else 0
    moduleGetDelay := 0 }

/-- Claim C10: an enqueue that arrives before any successful setup
(write segment still has hardware sample rate 0) returns at once and
leaves the whole module state untouched. -/
theorem audioEnqueue_before_setup (s : AudioState) (c : Nat)
    (h : (writeSeg s).HwSampleRate = 0) : AudioEnqueue s c = s := by
  simp only [AudioEnqueue]
  rw [if_pos h]

/-- Concrete run of claim C10: on the fresh-init state an enqueue of
4608 bytes is the identity. -/
theorem audioEnqueue_before_setup_witness :
    AudioEnqueue initState 4608 = initState :=
  audioEnqueue_before_setup initState 4608 rfl

/-- Claim C5: `AudioRingAdd` returns -1 with the state untouched when
the rate is not in the supported table, when the channel-matrix entry of
the rate index and channel count is 0, or when all 8 slots are filled;
in every other case it returns 0. -/
theorem audioRingAdd_spec (s : AudioState) (rate channels : Nat) (ac3 : Bool) :
    (AudioRatesTable.findIdx? (fun r => r == rate) = none →
      AudioRingAdd s rate channels ac3 = (s, -1)) ∧
    (∀ u, AudioRatesTable.findIdx? (fun r => r == rate) = some u →
      s.AudioChannelMatrix u channels = 0 →
      AudioRingAdd s rate channels ac3 = (s, -1)) ∧
    (s.AudioRingFilled = 8 →
      AudioRingAdd s rate channels ac3 = (s, -1)) ∧
    (∀ u, AudioRatesTable.findIdx? (fun r => r == rate) = some u →
      s.AudioChannelMatrix u channels ≠ 0 → s.AudioRingFilled ≠ 8 →
      (AudioRingAdd s rate channels ac3).2 = 0) := by
  refine ⟨?_, ?_, ?_, ?_⟩
  · intro h
    simp only [AudioRingAdd, h]
  · intro u hu h
    simp only [AudioRingAdd, hu]
    rw [if_pos h]
  · intro h
    rcases hfind : AudioRatesTable.findIdx? (fun r => r == rate) with _ | u
    · simp only [AudioRingAdd, hfind]
    · simp only [AudioRingAdd, hfind, AUDIO_RING_MAX]
      split_ifs <;> rfl
  · intro u hu h1 h2
    simp only [AudioRingAdd, hu]
    rw [if_neg h1, if_neg (by simpa [AUDIO_RING_MAX] using h2)]

/-- Concrete run of claim C5: on the fresh-init state, a setup request
for the unsupported rate 32000 Hz is rejected with -1 and no state
change. -/
theorem audioRingAdd_spec_witness :
    AudioRingAdd initState 32000 2 false = (initState, -1) :=
  (audioRingAdd_spec initState 32000 2 false).1 rfl

/-- State with all 8 ring slots in flight (e.g. eight undrained setups):
used to examine `AudioFlushBuffers` at full capacity. -/
def fullRingState : AudioState :=
  { initState with
    AudioRing := List.replicate 8
      { initSeg with FlushBuffers := true, HwSampleRate := 48000, HwChannels := 2
                     InSampleRate := 48000, InChannels := 2 }
    AudioRingFilled := 8
    AudioRunning := true }

/-- Claim C3 counterexample: with all 8 segments in flight
(`AudioRingFilled = 8`), `AudioFlushBuffers` does NOT fail — it has no
error return at all (void in C) — and it DOES advance the write index
onto the next (occupied) slot, pushing the fill count to 9. -/
theorem audioFlushBuffers_full_no_failure :
    fullRingState.AudioRingFilled = 8 ∧
    (AudioFlushBuffers fullRingState).AudioRingWrite =
      (fullRingState.AudioRingWrite + 1) % 8 ∧
    (AudioFlushBuffers fullRingState).AudioRingFilled = 9 := by
  decide

/-- Claim C3 as amended: `AudioFlushBuffers` performs no capacity check;
even when the fill count is 8 it advances the write index to the next
slot and increments the fill count to 9 (only `AudioRingAdd`, i.e.
setup, rejects with -1 at a full ring). -/
theorem audioFlushBuffers_always_advances (s : AudioState)
    (h : s.AudioRingFilled = 8) :
    (AudioFlushBuffers s).AudioRingWrite = (s.AudioRingWrite + 1) % 8 ∧
    (AudioFlushBuffers s).AudioRingFilled = 9 := by
  simp [AudioFlushBuffers, AUDIO_RING_MAX, h]

/-- Concrete run of claim C3 (amended): flushing the full-ring state
moves the write index from 0 to 1 and the fill count from 8 to 9. -/
theorem audioFlushBuffers_always_advances_witness :
    (AudioFlushBuffers fullRingState).AudioRingWrite =
      (fullRingState.AudioRingWrite + 1) % 8 ∧
    (AudioFlushBuffers fullRingState).AudioRingFilled = 9 :=
  audioFlushBuffers_always_advances fullRingState rfl

/-- State whose read segment carries a valid PTS while the engine is not
running (set up, enqueued, clock set, playback never started), so the
delay is reported as 0. -/
def idleClockState : AudioState :=
  { initState with
    AudioRing := List.replicate 8
      { initSeg with HwSampleRate := 48000, HwChannels := 2
                     InSampleRate := 48000, InChannels := 2, PTS := 0 } }

/-- Claim C2 counterexample: in `idleClockState` the read-segment PTS is
0 (not SENTINEL) and `AudioGetDelay` is 0, yet `AudioGetClock` returns
SENTINEL instead of `PTS - delay = 0`: SENTINEL is also returned
whenever the delay evaluates to 0, not only on a SENTINEL PTS. -/
theorem audioGetClock_zero_delay_sentinel :
    (readSeg idleClockState).PTS = 0 ∧
    (readSeg idleClockState).PTS ≠ SENTINEL ∧
    AudioGetDelay idleClockState = 0 ∧
    AudioGetClock idleClockState = SENTINEL := by
  refine ⟨rfl, by decide, rfl, rfl⟩

/-- Claim C2 as amended: `AudioGetClock` returns `PTS - AudioGetDelay`
when the read-segment PTS is not SENTINEL and the delay is non-zero;
it returns SENTINEL when the PTS is SENTINEL or the delay is zero. -/
theorem audioGetClock_spec (s : AudioState) :
    ((readSeg s).PTS ≠ SENTINEL → AudioGetDelay s ≠ 0 →
      AudioGetClock s = (readSeg s).PTS - AudioGetDelay s) ∧
    ((readSeg s).PTS = SENTINEL ∨ AudioGetDelay s = 0 →
      AudioGetClock s = SENTINEL) := by
  constructor
  · intro h1 h2
    simp only [AudioGetClock]
    rw [if_pos h1, if_pos h2]
    ring
  · rintro (h | h)
    · simp only [AudioGetClock]
      rw [if_neg (by simp [h])]
    · simp only [AudioGetClock]
      split_ifs with h1 h2
      · exact absurd h h2
      · rfl
      · rfl

/-- Concrete run of claim C2 (amended): running engine, drained queue,
read segment holding 9600 buffered bytes at 48 kHz stereo with PTS
900000 and an adapter delay of 1000 ticks: the clock reads
`900000 - (1000 + 9600 * 90000 / 192000) = 894500`. -/
theorem audioGetClock_spec_witness :
    AudioGetClock
      { initState with
        AudioRunning := true
        moduleGetDelay := 1000
        AudioRing := List.replicate 8
          { initSeg with HwSampleRate := 48000, HwChannels := 2
                         PTS := 900000
                         Ring := { capacity := AudioRingBufferSize, used := 9600 } } }
      = 894500 := by
  rw [(audioGetClock_spec _).1 (by decide) (by decide)]
  decide

/-- Helper: the packet-size stage changes no field but `PacketSize`. -/
theorem enqueueSegPacket_proj (s : AudioState) (c0 : Nat) :
    (enqueueSegPacket s c0).PTS = (writeSeg s).PTS ∧
    (enqueueSegPacket s c0).HwSampleRate = (writeSeg s).HwSampleRate ∧
    (enqueueSegPacket s c0).HwChannels = (writeSeg s).HwChannels := by
  unfold enqueueSegPacket
  split_ifs <;> exact ⟨rfl, rfl, rfl⟩

/-- Helper: the ring-write and skip stages change only the ring. -/
theorem enqueueSegSkipped_proj (s : AudioState) (c0 : Nat) :
    (enqueueSegSkipped s c0).PTS = (writeSeg s).PTS ∧
    (enqueueSegSkipped s c0).HwSampleRate = (writeSeg s).HwSampleRate ∧
    (enqueueSegSkipped s c0).HwChannels = (writeSeg s).HwChannels := by
  have h := enqueueSegPacket_proj s c0
  unfold enqueueSegSkipped enqueueSegWritten
  split_ifs <;> exact ⟨h.1, h.2.1, h.2.2⟩

/-- Helper: the recorded packet size plays no role in the byte-count
conversion. -/
theorem enqueueHwBytes_packet (s : AudioState) (c0 : Nat) :
    enqueueHwBytes (enqueueSegPacket s c0) c0 = enqueueHwBytes (writeSeg s) c0 := by
  unfold enqueueSegPacket enqueueHwBytes
  split_ifs <;> rfl

/-- Helper: the PTS advance does not touch the ring. -/
theorem enqueueSegFinal_ring (s : AudioState) (c0 : Nat) :
    (enqueueSegFinal s c0).Ring = (enqueueSegSkipped s c0).Ring := by
  unfold enqueueSegFinal
  split_ifs <;> rfl

/-- Helper: after an enqueue past the setup guard, the write slot holds
exactly the final-stage segment. -/
theorem writeSeg_audioEnqueue (s : AudioState) (c0 : Nat)
    (hlen : s.AudioRingWrite < s.AudioRing.length)
    (hhw : ¬(writeSeg s).HwSampleRate = 0) :
    writeSeg (AudioEnqueue s c0) = enqueueSegFinal s c0 := by
  unfold AudioEnqueue
  rw [if_neg hhw]
  unfold writeSeg
  exact getD_set_self _ _ _ hlen

/-- Helper: the running flag after an enqueue past the setup guard. -/
theorem audioEnqueue_running (s : AudioState) (c0 : Nat)
    (hhw : ¬(writeSeg s).HwSampleRate = 0) :
    (AudioEnqueue s c0).AudioRunning =
      if s.AudioRunning = false ∧
          (s.AudioStartThreshold * 4 <
              RingBufferUsedBytes (enqueueSegSkipped s c0).Ring ∨
            (s.AudioVideoIsReady = true ∧
              s.AudioStartThreshold <
                RingBufferUsedBytes (enqueueSegSkipped s c0).Ring)) then
        true
      else s.AudioRunning := by
  unfold AudioEnqueue
  rw [if_neg hhw]

/-- Claim C6: an enqueue into a configured write segment advances a
non-SENTINEL PTS by exactly `b * 90000 / (HwSampleRate * HwChannels *
2)` ticks, where `b` is the byte count after conversion to the hardware
format, and leaves a SENTINEL PTS untouched. -/
theorem audioEnqueue_pts_advance (s : AudioState) (c : Nat)
    (hlen : s.AudioRingWrite < s.AudioRing.length)
    (hhw : (writeSeg s).HwSampleRate ≠ 0) :
    ((writeSeg s).PTS = SENTINEL →
      (writeSeg (AudioEnqueue s c)).PTS = SENTINEL) ∧
    ((writeSeg s).PTS ≠ SENTINEL →
      (writeSeg (AudioEnqueue s c)).PTS = (writeSeg s).PTS +
        ((enqueueHwBytes (writeSeg s) c * 90 * 1000) /
          ((writeSeg s).HwSampleRate * (writeSeg s).HwChannels *
            AudioBytesProSample) : Nat)) := by
  have hp := enqueueSegSkipped_proj s c
  rw [writeSeg_audioEnqueue s c hlen hhw]
  constructor
  · intro hpts
    unfold enqueueSegFinal
    rw [if_neg (by rw [hp.1]; exact fun hne => hne hpts), hp.1]
    exact hpts
  · intro hpts
    unfold enqueueSegFinal
    rw [if_pos (by rw [hp.1]; exact hpts)]
    show (enqueueSegSkipped s c).PTS + _ = _
    rw [hp.1, hp.2.1, hp.2.2, enqueueHwBytes_packet]

/-- Concrete run of claim C6: enqueueing 192000 input bytes (1 s of
48 kHz stereo) into a 48 kHz stereo write segment with PTS 0 moves the
PTS to `192000 * 90000 / 192000 = 90000` ticks. -/
theorem audioEnqueue_pts_advance_witness :
    (writeSeg (AudioEnqueue idleClockState 192000)).PTS = 90000 := by
  rw [(audioEnqueue_pts_advance idleClockState 192000 (by decide)
    (by decide)).2 (by decide)]
  decide

/-- Claim C4 counterexample: on the fresh-init state (reachable, with
the worker thread created), the setup operation `AudioRingAdd 44100 2`
flips `AudioRunning` from false to true although `AudioVideoIsReady` is
false and the write segment holds 0 bytes, which is not more than
`4 * AudioStartThreshold`: the claim fails for setup operations. -/
theorem audioRingAdd_starts_without_data :
    initState.AudioRunning = false ∧
    initState.AudioVideoIsReady = false ∧
    ((AudioRingAdd initState 44100 2 false).1).AudioRunning = true ∧
    RingBufferUsedBytes
      (writeSeg ((AudioRingAdd initState 44100 2 false).1)).Ring = 0 ∧
    ¬ initState.AudioStartThreshold * 4 <
        RingBufferUsedBytes
          (writeSeg ((AudioRingAdd initState 44100 2 false).1)).Ring := by
  decide

/-- Claim C4 as amended: restricted to enqueue operations the gate
holds — while `AudioVideoIsReady` is false, an enqueue flips
`AudioRunning` from false to true only when the write segment ends up
holding more than `4 * AudioStartThreshold` bytes (after pending-skip
consumption).  Setup operations set the flag unconditionally whenever
the worker thread exists (see the counterexample). -/
theorem audioEnqueue_start_gate (s : AudioState) (c : Nat)
    (hlen : s.AudioRingWrite < s.AudioRing.length)
    (hrun : s.AudioRunning = false) (hvid : s.AudioVideoIsReady = false)
    (hstart : (AudioEnqueue s c).AudioRunning = true) :
    s.AudioStartThreshold * 4 <
      RingBufferUsedBytes (writeSeg (AudioEnqueue s c)).Ring := by
  by_cases hhw : (writeSeg s).HwSampleRate = 0
  · unfold AudioEnqueue at hstart
    rw [if_pos hhw, hrun] at hstart
    simp at hstart
  · rw [writeSeg_audioEnqueue s c hlen hhw, enqueueSegFinal_ring]
    rw [audioEnqueue_running s c hhw] at hstart
    split at hstart
    · next h =>
      rcases h.2 with hA | ⟨hv, _⟩
      · exact hA
      · rw [hvid] at hv
        simp at hv
    · rw [hrun] at hstart
      simp at hstart

/-- Concrete run of claim C4 (amended): enqueueing 4 input bytes into a
configured 48 kHz stereo segment of the zero-threshold fresh-setup state
starts the worker, and indeed `0 * 4 < 4` buffered bytes. -/
theorem audioEnqueue_start_gate_witness :
    idleClockState.AudioStartThreshold * 4 <
      RingBufferUsedBytes (writeSeg (AudioEnqueue idleClockState 4)).Ring :=
  audioEnqueue_start_gate idleClockState 4 (by decide) rfl rfl (by decide)
